import Mathlib

set_option allowUnsafeReducibility true
attribute [semireducible] Rat.add Rat.mul Rat.sub Rat.inv Rat.div Rat.neg

/-!
A shallow embedding of the DocAsk backend's document-analysis core:
the rule-based clause analyser (`app/services/analysis_service.py`),
the document parser (`app/services/document_parser.py`) and the two
Celery tasks (`app/tasks.py`), together with theorems checking the
natural-language specification against this embedding.

Conventions:
* Text is `List Char`; Python string operations are modelled on lists.
* Python floats carrying risk/confidence scores are modelled as `ℚ`
  (the constants 0.3, 0.2, 0.1, … are exact decimals).
* Wall-clock timestamps (`datetime.utcnow()`) are outside the embedding;
  on documents only the presence of a timestamp is tracked, as a `Bool`.
* A Python function that can raise or return `None` returns an `Option`
  (or `Except`) value.
-/

/-- Python `\s` whitespace class (ASCII part): space, tab, newline,
vertical tab, form feed, carriage return. -/
def pyWs (c : Char) : Bool :=
  c == ' ' || c == '\t' || c == '\n' || c == '\x0b' || c == '\x0c' || c == '\r'

/-- Python `str.lower()` (the keyword/pattern alphabet is ASCII). -/
def pyLower (l : List Char) : List Char :=
  l.map Char.toLower

/-- Helper for `collapseWs`; the flag records whether the previous character
was whitespace (i.e. we are inside a whitespace run that already emitted its
single replacement space). -/
def collapseWsAux : Bool → List Char → List Char
  | _, [] => []
  | prevWs, c :: cs =>
    if pyWs c then
      if prevWs then collapseWsAux true cs else ' ' :: collapseWsAux true cs
    else c :: collapseWsAux false cs

/-- Source `re.sub(r'\s+', ' ', text)`: replace every maximal whitespace run by a
single space. -/
def collapseWs (l : List Char) : List Char :=
  collapseWsAux false l

/-- Python `str.strip()`: drop whitespace from both ends. -/
def pyStrip (l : List Char) : List Char :=
  ((l.dropWhile pyWs).reverse.dropWhile pyWs).reverse

/-- Helper for `wordCount`; the flag records whether we are inside a
non-whitespace run that was already counted. -/
def wordCountAux : Bool → List Char → Nat
  | _, [] => 0
  | inWord, c :: cs =>
    if pyWs c then wordCountAux false cs
    else (if inWord then 0 else 1) + wordCountAux true cs

/-- Source `len(s.split())`: the number of maximal non-whitespace runs. -/
def wordCount (l : List Char) : Nat :=
  wordCountAux false l

/-- Occurrence of `sub` at some position of the second list. -/
def isInfixList (sub : List Char) : List Char → Bool
  | [] => sub.isEmpty
  | c :: cs => sub.isPrefixOf (c :: cs) || isInfixList sub cs

/-- Python `sub in s` (substring containment). -/
def pyContains (s sub : List Char) : Bool :=
  isInfixList sub s

/-- Helper for `pyFind`: first index ≥ `i` at which `sub` occurs in the
remaining text, `-1` if none. -/
def pyFindFrom (sub : List Char) : List Char → Int → Int
  | [], i => if sub.isEmpty then i else -1
  | c :: ts, i =>
    if sub.isPrefixOf (c :: ts) then i else pyFindFrom sub ts (i + 1)

/-- Python `text.find(sub)`: index of the first occurrence, `-1` if absent. -/
def pyFind (text sub : List Char) : Int :=
  pyFindFrom sub text 0

/-- Python dict `.get(k)` over an insertion-ordered association list. -/
def lookupAssoc {α : Type} (ps : List (String × α)) (k : String) : Option α :=
  (ps.find? (fun p => p.1 == k)).map Prod.snd

/-- Python `min(a, b)` on rationals. -/
def pyMin (a b : ℚ) : ℚ := if a ≤ b then a else b

/-- Python `max(a, b)` on rationals. -/
def pyMax (a b : ℚ) : ℚ := if b ≤ a then a else b

/-- Source `RuleBasedStrategy._initialize_risk_keywords()['high_risk']`. -/
def high_risk_keywords : List (List Char) :=
  ["unlimited liability".toList, "personal guarantee".toList, "liquidated damages".toList,
   "punitive damages".toList, "immediate termination".toList, "no cure period".toList,
   "waiver of rights".toList, "hold harmless".toList, "gross negligence".toList]

/-- Source `RuleBasedStrategy._initialize_risk_keywords()['medium_risk']`. -/
def medium_risk_keywords : List (List Char) :=
  ["indemnification".toList, "limitation of liability".toList, "consequential damages".toList,
   "termination for convenience".toList, "change of control".toList, "assignment".toList]

/-- Source `RuleBasedStrategy._initialize_risk_keywords()['low_risk']`. -/
def low_risk_keywords : List (List Char) :=
  ["standard terms".toList, "mutual agreement".toList, "reasonable efforts".toList,
   "good faith".toList, "commercially reasonable".toList]

/-- Source `RuleBasedStrategy._calculate_risk_score`: accumulate +0.3 per high-risk
keyword present, +0.2 per medium-risk keyword, −0.1 per low-risk keyword,
clamp with `max(0.0, min(1.0, ·))`, then derive the level by thresholds. -/
def calculate_risk_score (text : List Char) : ℚ × String :=
  let text_lower := pyLower text
  let s1 : ℚ :=
    high_risk_keywords.foldl
      (fun acc kw => if pyContains text_lower kw then acc + 3/10 else acc) 0
  let s2 : ℚ :=
    medium_risk_keywords.foldl
      (fun acc kw => if pyContains text_lower kw then acc + 2/10 else acc) s1
  let s3 : ℚ :=
    low_risk_keywords.foldl
      (fun acc kw => if pyContains text_lower kw then acc - 1/10 else acc) s2
  let risk_score := pyMax 0 (pyMin 1 s3)
  let risk_level :=
    if risk_score ≥ 7/10 then "critical"
    else if risk_score ≥ 5/10 then "high"
    else if risk_score ≥ 3/10 then "medium"
    else "low"
  (risk_score, risk_level)

/-- The spec's step function from a score to a risk level:
critical if ≥ 0.7, high if ≥ 0.5, medium if ≥ 0.3, else low. -/
def riskLevelOfScore (s : ℚ) : String :=
  if s ≥ 7/10 then "critical"
  else if s ≥ 5/10 then "high"
  else if s ≥ 3/10 then "medium"
  else "low"

/-- The spec's closed-form risk score: 0.3·(#high present) + 0.2·(#medium
present) − 0.1·(#low present), clamped to `[0, 1]`. -/
def riskScoreSpec (text : List Char) : ℚ :=
  let text_lower := pyLower text
  pyMax 0 (pyMin 1
    (3/10 * (high_risk_keywords.countP (fun kw => pyContains text_lower kw) : ℚ)
     + 2/10 * (medium_risk_keywords.countP (fun kw => pyContains text_lower kw) : ℚ)
     - 1/10 * (low_risk_keywords.countP (fun kw => pyContains text_lower kw) : ℚ)))

theorem foldl_add_if {α : Type} (w : ℚ) (p : α → Bool) :
    ∀ (l : List α) (a : ℚ),
      l.foldl (fun acc kw => if p kw then acc + w else acc) a
        = a + w * (l.countP p : ℚ)
  | [], a => by simp
  | x :: xs, a => by
    rw [List.foldl_cons, List.countP_cons]
    cases hx : p x
    · simp only [hx, Bool.false_eq_true, if_false]
      rw [foldl_add_if w p xs a]
      simp
    · simp only [hx, if_true]
      rw [foldl_add_if w p xs (a + w)]
      push_cast
      ring

theorem foldl_sub_if {α : Type} (w : ℚ) (p : α → Bool) :
    ∀ (l : List α) (a : ℚ),
      l.foldl (fun acc kw => if p kw then acc - w else acc) a
        = a - w * (l.countP p : ℚ)
  | [], a => by simp
  | x :: xs, a => by
    rw [List.foldl_cons, List.countP_cons]
    cases hx : p x
    · simp only [hx, Bool.false_eq_true, if_false]
      rw [foldl_sub_if w p xs a]
      simp
    · simp only [hx, if_true]
      rw [foldl_sub_if w p xs (a - w)]
      push_cast
      ring

theorem calculate_risk_score_fst (text : List Char) :
    (calculate_risk_score text).1 = riskScoreSpec text := by
  simp only [calculate_risk_score, riskScoreSpec]
  rw [foldl_add_if, foldl_add_if, foldl_sub_if]
  congr 1
  congr 1
  ring

/-- C1: the risk computation returns exactly the additive clamped score of
the spec, and the returned level is the pure step function of that score. -/
theorem risk_score_is_clamped_additive_formula (text : List Char) :
    calculate_risk_score text
      = (riskScoreSpec text, riskLevelOfScore (riskScoreSpec text)) := by
  have h2 : (calculate_risk_score text).2
      = riskLevelOfScore ((calculate_risk_score text).1) := rfl
  exact Prod.ext_iff.mpr
    ⟨calculate_risk_score_fst text,
     h2.trans (congrArg riskLevelOfScore (calculate_risk_score_fst text))⟩

/-- One token of the restricted regex dialect used by the source patterns:
a literal character, a whitespace run matching Python regex `\s+`, a digit
run matching `\d+`, or an optional character written `c?`. -/
inductive RTok
  | lit (c : Char)
  | wsRun
  | digitRun
  | opt (c : Char)
deriving DecidableEq

/-- Compile one of the source's pattern strings into tokens. The source
patterns use only literal characters and the three constructs handled here. -/
def compilePat : List Char → List RTok
  | [] => []
  | '\\' :: 's' :: '+' :: rest => .wsRun :: compilePat rest
  | '\\' :: 'd' :: '+' :: rest => .digitRun :: compilePat rest
  | c :: '?' :: rest => .opt c :: compilePat rest
  | c :: rest => .lit c :: compilePat rest

/-- Fuelled matcher core: match a token sequence against the head of `cs`
(the anchored part of `re.search`). Runs match with arbitrary positive
length, giving existential (backtracking) semantics. Every recursive call
strictly decreases `ts.length + cs.length`, so fuel
`ts.length + cs.length + 1` never runs out. -/
def matchToksF : Nat → List RTok → List Char → Bool
  | 0, _, _ => false
  | _ + 1, [], _ => true
  | f + 1, .opt c :: ts, cs =>
    (match cs with
     | d :: cs2 => c == d && matchToksF f ts cs2
     | [] => false)
    || matchToksF f ts cs
  | f + 1, .lit c :: ts, d :: cs => c == d && matchToksF f ts cs
  | f + 1, .wsRun :: ts, d :: cs =>
    pyWs d && (matchToksF f ts cs || matchToksF f (.wsRun :: ts) cs)
  | f + 1, .digitRun :: ts, d :: cs =>
    d.isDigit && (matchToksF f ts cs || matchToksF f (.digitRun :: ts) cs)
  | _ + 1, _, [] => false

/-- Match a token sequence against a prefix of `cs`, with sufficient fuel. -/
def matchToks (ts : List RTok) (cs : List Char) : Bool :=
  matchToksF (ts.length + cs.length + 1) ts cs

/-- Python `re.search(pattern, s)`: match at any starting position. -/
def rsearch (p : List RTok) : List Char → Bool
  | [] => matchToks p []
  | c :: cs => matchToks p (c :: cs) || rsearch p cs

/-- Source `RuleBasedStrategy._initialize_legal_patterns`: the six ordered category
pattern sets, in source declaration order. -/
def legal_patterns : List (String × List (List RTok)) :=
  [("liability",
    [compilePat (r"liable\s+for\s+any\s+damages").toList,
     compilePat (r"limitation\s+of\s+liability").toList,
     compilePat (r"shall\s+not\s+be\s+liable").toList,
     compilePat (r"indemnify\s+and\s+hold\s+harmless").toList,
     compilePat (r"gross\s+negligence").toList,
     compilePat (r"consequential\s+damages").toList]),
   ("termination",
    [compilePat (r"terminate\s+this\s+agreement").toList,
     compilePat (r"upon\s+termination").toList,
     compilePat (r"breach\s+of\s+contract").toList,
     compilePat (r"notice\s+of\s+termination").toList,
     compilePat (r"cure\s+period").toList,
     compilePat (r"immediate\s+termination").toList]),
   ("payment",
    [compilePat (r"payment\s+terms").toList,
     compilePat (r"invoice\s+date").toList,
     compilePat (r"late\s+payment").toList,
     compilePat (r"interest\s+on\s+overdue").toList,
     compilePat (r"payment\s+schedule").toList,
     compilePat (r"net\s+\d+\s+days").toList]),
   ("intellectual_property",
    [compilePat (r"intellectual\s+property\s+rights?").toList,
     compilePat (r"proprietary\s+information").toList,
     compilePat (r"trade\s+secrets?").toList,
     compilePat (r"copyright").toList,
     compilePat (r"patent").toList,
     compilePat (r"trademark").toList]),
   ("confidentiality",
    [compilePat (r"confidential\s+information").toList,
     compilePat (r"non-disclosure").toList,
     compilePat (r"proprietary\s+and\s+confidential").toList,
     compilePat (r"confidentiality\s+agreement").toList,
     compilePat (r"return\s+confidential\s+information").toList]),
   ("governing_law",
    [compilePat (r"governed\s+by\s+the\s+laws\s+of").toList,
     compilePat (r"jurisdiction\s+and\s+venue").toList,
     compilePat (r"dispute\s+resolution").toList,
     compilePat (r"arbitration").toList,
     compilePat (r"applicable\s+law").toList])]

/-- The nested loop of `RuleBasedStrategy._categorize_clause`: first category
whose pattern list contains a matching pattern wins. -/
def categorizeLoop : List (String × List (List RTok)) → List Char → String
  | [], _ => "general"
  | (category, patterns) :: rest, t =>
    if patterns.any (fun p => rsearch p t) then category else categorizeLoop rest t

/-- Source `RuleBasedStrategy._categorize_clause`. -/
def categorize_clause (text : List Char) : String :=
  categorizeLoop legal_patterns (pyLower text)

theorem categorizeLoop_eq_find? (l : List (String × List (List RTok))) (t : List Char) :
    categorizeLoop l t
      = ((l.find? (fun cp => cp.2.any (fun p => rsearch p t))).map Prod.fst).getD "general" := by
  induction l with
  | nil => rfl
  | cons hd tl ih =>
    cases hd with
    | mk category patterns =>
      simp only [categorizeLoop, List.find?]
      cases hmatch : patterns.any (fun p => rsearch p t)
      · simp only [Bool.false_eq_true, if_false, ih]
      · simp

/-- C9: the assigned category is the first of the six pattern sets, in the
fixed declaration order liability, termination, payment,
intellectual_property, confidentiality, governing_law, that has at least one
matching pattern; no match at all gives "general". -/
theorem category_is_first_matching_in_declaration_order (text : List Char) :
    legal_patterns.map Prod.fst
      = ["liability", "termination", "payment", "intellectual_property",
         "confidentiality", "governing_law"] ∧
    categorize_clause text
      = ((legal_patterns.find?
            (fun cp => cp.2.any (fun p => rsearch p (pyLower text)))).map
          Prod.fst).getD "general" := by
  exact ⟨rfl, categorizeLoop_eq_find? legal_patterns (pyLower text)⟩

/-- Source `RuleBasedStrategy._normalize_text`: collapse whitespace, lowercase,
strip. -/
def normalize_text (text : List Char) : List Char :=
  pyStrip (pyLower (collapseWs text))

/-- Split at each sentence-delimiter character of `re.split(r'[.!?]+', text)`.
Splitting on single delimiter characters instead of delimiter runs differs
only in extra empty fragments, which the caller filters away. -/
def splitAtDelims : List Char → List Char → List (List Char)
  | cur, [] => [cur.reverse]
  | cur, c :: cs =>
    if c == '.' || c == '!' || c == '?' then cur.reverse :: splitAtDelims [] cs
    else splitAtDelims (c :: cur) cs

/-- Source `RuleBasedStrategy._split_into_sentences`: split on terminal punctuation,
strip each fragment, keep the non-empty ones. -/
def split_into_sentences (text : List Char) : List (List Char) :=
  ((splitAtDelims [] text).map pyStrip).filter (fun s => !s.isEmpty)

/-- The fixed legal-vocabulary list of
`RuleBasedStrategy._contains_legal_language`. -/
def legal_indicators : List (List Char) :=
  ["shall".toList, "party".toList, "agreement".toList, "contract".toList,
   "terms".toList, "conditions".toList, "liable".toList, "rights".toList,
   "obligations".toList, "terminate".toList, "breach".toList,
   "indemnify".toList, "warrant".toList]

/-- Source `RuleBasedStrategy._contains_legal_language`. -/
def contains_legal_language (sentence : List Char) : Bool :=
  let sentence_lower := pyLower sentence
  legal_indicators.any (fun indicator => pyContains sentence_lower indicator)

/-- A clause as produced by `RuleBasedStrategy._extract_clauses`. -/
structure RawClause where
  text : List Char
  position : Nat
  start_char : Int
  end_char : Int
deriving DecidableEq

/-- Source `RuleBasedStrategy._extract_clauses`: keep sentences of ≥ 5 words that
contain legal language, recording position and character offsets. -/
def extract_clauses (text : List Char) : List RawClause :=
  (split_into_sentences text).enum.filterMap (fun is =>
    if wordCount is.2 < 5 then none
    else if contains_legal_language is.2 then
      some { text := pyStrip is.2
             position := is.1
             start_char := pyFind text is.2
             end_char := pyFind text is.2 + (is.2.length : Int) }
    else none)

/-- The subcategory keyword table of `RuleBasedStrategy._get_subcategory`. -/
def subcategory_mapping : List (String × List (String × List (List Char))) :=
  [("liability",
    [("limitation", ["limitation of liability".toList, "limited to".toList]),
     ("exclusion", ["shall not be liable".toList, "no liability".toList]),
     ("indemnification", ["indemnify".toList, "hold harmless".toList])]),
   ("termination",
    [("for_cause", ["material breach".toList, "for cause".toList]),
     ("for_convenience", ["for convenience".toList, "without cause".toList]),
     ("automatic", ["automatic termination".toList, "immediately terminate".toList])])]

/-- Source `RuleBasedStrategy._get_subcategory`: first subcategory of the category
whose keyword list has a member contained in the text; `None` otherwise. -/
def get_subcategory (text : List Char) (category : String) : Option String :=
  let text_lower := pyLower text
  match lookupAssoc subcategory_mapping category with
  | none => none
  | some subs =>
    ((subs.find? (fun sk => sk.2.any (fun keyword => pyContains text_lower keyword))).map
      Prod.fst)

/-- Source `RuleBasedStrategy._calculate_confidence_score`: 0.3 flat for "general",
else matched/total + 0.5 capped at 1.0 (0.5 if the category has no
patterns). -/
def calculate_confidence_score (text : List Char) (category : String) : ℚ :=
  if category == "general" then 3/10
  else
    let text_lower := pyLower text
    let patterns := (lookupAssoc legal_patterns category).getD []
    let total_patterns := patterns.length
    let pattern_matches := patterns.countP (fun p => rsearch p text_lower)
    if total_patterns == 0 then 1/2
    else pyMin 1 ((pattern_matches : ℚ) / (total_patterns : ℚ) + 1/2)

/-- The fixed advisory strings of
`RuleBasedStrategy._generate_recommendations`. -/
def category_recommendations : List (String × List String) :=
  [("liability",
    ["Consider adding mutual liability limitations",
     "Review indemnification scope and exclusions",
     "Ensure adequate insurance requirements"]),
   ("termination",
    ["Verify termination notice periods are reasonable",
     "Check for adequate cure periods",
     "Review post-termination obligations"]),
   ("payment",
    ["Confirm payment terms align with business practices",
     "Review late payment penalties",
     "Verify invoice and payment procedures"]),
   ("confidentiality",
    ["Ensure confidentiality scope is appropriate",
     "Review return/destruction obligations",
     "Check for adequate exceptions"])]

/-- Source `RuleBasedStrategy._generate_recommendations` (its `text` argument is
unused in the source). -/
def generate_recommendations (_text : List Char) (category risk_level : String) : String :=
  let recommendations : List String :=
    if risk_level == "critical" || risk_level == "high" then
      ["⚠️ HIGH RISK: Review this clause carefully with legal counsel."]
    else []
  let recommendations :=
    recommendations ++ ((lookupAssoc category_recommendations category).getD []).take 2
  if recommendations.isEmpty then "No specific recommendations."
  else String.intercalate " | " recommendations

/-- Source `RuleBasedStrategy._get_matched_patterns`. -/
def get_matched_patterns (text : List Char) (category : String) : List (List RTok) :=
  let text_lower := pyLower text
  ((lookupAssoc legal_patterns category).getD []).filter (fun p => rsearch p text_lower)

/-- The per-clause analysis metadata dict built by
`RuleBasedStrategy._analyze_clause`. -/
structure ClauseMeta where
  analysis_method : String
  matched_patterns : List (List RTok)
deriving DecidableEq

/-- A clause record as returned by `RuleBasedStrategy._analyze_clause`. -/
structure AnalyzedClause where
  text : List Char
  category : String
  subcategory : Option String
  risk_score : ℚ
  risk_level : String
  confidence_score : ℚ
  start_position : Int
  end_position : Int
  page_number : Option Nat
  recommendations : String
  metadata : ClauseMeta
deriving DecidableEq

/-- Source `RuleBasedStrategy._analyze_clause`. -/
def analyze_clause (clause : RawClause) : AnalyzedClause :=
  let text := clause.text
  let category := categorize_clause text
  let rs := calculate_risk_score text
  let recommendations := generate_recommendations text category rs.2
  { text := text
    category := category
    subcategory := get_subcategory text category
    risk_score := rs.1
    risk_level := rs.2
    confidence_score := calculate_confidence_score text category
    start_position := clause.start_char
    end_position := clause.end_char
    page_number := none
    recommendations := recommendations
    metadata := { analysis_method := "rule_based"
                  matched_patterns := get_matched_patterns text category } }

/-- The summary dict of `RuleBasedStrategy._generate_analysis_summary`.
`high_risk_clauses` is an `Option` because the source's empty-input branch
returns a dict without that key. -/
structure AnalysisSummary where
  total_clauses : Nat
  risk_distribution : List (String × Nat)
  category_breakdown : List (String × Nat)
  overall_risk_score : ℚ
  high_risk_clauses : Option Nat
deriving DecidableEq

/-- Source `dict[k] = dict.get(k, 0) + 1` on an insertion-ordered histogram. -/
def bumpCount (m : List (String × Nat)) (k : String) : List (String × Nat) :=
  if m.any (fun p => p.1 == k) then
    m.map (fun p => if p.1 == k then (p.1, p.2 + 1) else p)
  else m ++ [(k, 1)]

/-- Source `RuleBasedStrategy._generate_analysis_summary`. -/
def generate_analysis_summary (clauses : List AnalyzedClause) : AnalysisSummary :=
  if clauses.isEmpty then
    { total_clauses := 0
      risk_distribution := []
      category_breakdown := []
      overall_risk_score := 0
      high_risk_clauses := none }
  else
    let acc :=
      clauses.foldl
        (fun (acc : List (String × Nat) × List (String × Nat) × ℚ) clause =>
          (bumpCount acc.1 clause.risk_level,
           bumpCount acc.2.1 clause.category,
           acc.2.2 + clause.risk_score))
        ([], [], 0)
    { total_clauses := clauses.length
      risk_distribution := acc.1
      category_breakdown := acc.2.1
      overall_risk_score := acc.2.2 / (clauses.length : ℚ)
      high_risk_clauses :=
        some (clauses.countP
          (fun c => c.risk_level == "critical" || c.risk_level == "high")) }

/-- The metadata dict attached to an analysis result. The wall-clock
`analysis_date` entry is outside the embedding; entries added only by later
layers (registry, ML stub, playbook path) are `Option` fields defaulting to
`none`. -/
structure AnalysisMetadata where
  strategy : String
  total_text_length : Nat
  processed_clauses : Nat
  note : Option String := none
  document_id : Option String := none
  strategy_used : Option String := none
  playbook_id : Option String := none
  analysis_type : Option String := none
deriving DecidableEq

/-- The dict returned by `AnalysisStrategy.analyze` implementations. -/
structure AnalysisResult where
  clauses : List AnalyzedClause
  summary : AnalysisSummary
  metadata : AnalysisMetadata
deriving DecidableEq

/-- Source `RuleBasedStrategy.analyze`. -/
def rule_based_analyze (text : List Char) (_document_id : String) : AnalysisResult :=
  let normalized_text := normalize_text text
  let clauses := extract_clauses normalized_text
  let analyzed_clauses := clauses.map analyze_clause
  let summary := generate_analysis_summary analyzed_clauses
  { clauses := analyzed_clauses
    summary := summary
    metadata := { strategy := "rule_based"
                  total_text_length := text.length
                  processed_clauses := analyzed_clauses.length } }

/-- C4 counterexample: on empty input the summary dict of the source's
empty-input branch has no high/critical-clause count at all (the
`high_risk_clauses` key is absent), so the summary does not contain every
summary field. -/
theorem empty_text_summary_lacks_high_risk_count :
    (rule_based_analyze [] "1").clauses = []
    ∧ (rule_based_analyze [] "1").summary.high_risk_clauses = none
    ∧ (rule_based_analyze [] "1").summary.high_risk_clauses ≠ some 0 := by
  refine ⟨rfl, rfl, ?_⟩
  decide

/-- C4 amended: empty input yields the empty clause list and the summary with
clause count 0, empty risk-level and category histograms and mean risk score
0 — but with the high/critical-clause count field absent, not 0. -/
theorem empty_text_yields_empty_analysis (document_id : String) :
    rule_based_analyze [] document_id
      = { clauses := []
          summary := { total_clauses := 0
                       risk_distribution := []
                       category_breakdown := []
                       overall_risk_score := 0
                       high_risk_clauses := none }
          metadata := { strategy := "rule_based"
                        total_text_length := 0
                        processed_clauses := 0 } } := rfl

theorem head?_dropWhile_not (p : α → Bool) :
    ∀ (l : List α) (c : α), (l.dropWhile p).head? = some c → p c = false
  | [], c => by intro h; simp [List.dropWhile] at h
  | x :: xs, c => by
    intro h
    rw [List.dropWhile_cons] at h
    by_cases hx : p x = true
    · rw [if_pos hx] at h
      exact head?_dropWhile_not p xs c h
    · rw [if_neg hx] at h
      simp only [List.head?_cons, Option.some.injEq] at h
      subst h
      exact Bool.eq_false_iff.mpr hx

theorem dropWhile_eq_self_of_head (p : α → Bool) (l : List α)
    (h : ∀ c, l.head? = some c → p c = false) : l.dropWhile p = l := by
  cases l with
  | nil => rfl
  | cons x xs =>
    rw [List.dropWhile_cons, if_neg]
    simp [h x rfl]

theorem getLast?_dropWhile (p : α → Bool) (l : List α)
    (h : l.dropWhile p ≠ []) : (l.dropWhile p).getLast? = l.getLast? := by
  obtain ⟨t, ht⟩ := List.dropWhile_suffix p (l := l)
  conv_rhs => rw [← ht]
  rw [List.getLast?_append]
  cases hz : (l.dropWhile p).getLast? with
  | none => exact absurd (List.getLast?_eq_none_iff.mp hz) h
  | some c => rfl

theorem pyStrip_head_not (l : List Char) (c : Char)
    (h : (pyStrip l).head? = some c) : pyWs c = false := by
  unfold pyStrip at h
  rw [List.head?_reverse] at h
  have hne : (l.dropWhile pyWs).reverse.dropWhile pyWs ≠ [] := by
    intro hz
    rw [hz] at h
    simp at h
  rw [getLast?_dropWhile pyWs _ hne, List.getLast?_reverse] at h
  exact head?_dropWhile_not pyWs _ _ h

theorem pyStrip_getLast_not (l : List Char) (c : Char)
    (h : (pyStrip l).getLast? = some c) : pyWs c = false := by
  unfold pyStrip at h
  rw [List.getLast?_reverse] at h
  exact head?_dropWhile_not pyWs _ _ h

theorem pyStrip_idem (l : List Char) : pyStrip (pyStrip l) = pyStrip l := by
  have h1 : (pyStrip l).dropWhile pyWs = pyStrip l :=
    dropWhile_eq_self_of_head pyWs (pyStrip l) (fun c hc => pyStrip_head_not l c hc)
  have h2 : (pyStrip l).reverse.dropWhile pyWs = (pyStrip l).reverse := by
    refine dropWhile_eq_self_of_head pyWs _ (fun c hc => ?_)
    rw [List.head?_reverse] at hc
    exact pyStrip_getLast_not l c hc
  show ((((pyStrip l).dropWhile pyWs).reverse.dropWhile pyWs)).reverse = pyStrip l
  rw [h1, h2, List.reverse_reverse]

/-- C10: every clause emitted by the Rule Engine comes from a sentence with
at least 5 words and contains at least one term of the fixed
legal-vocabulary list. -/
theorem emitted_clauses_are_long_and_legal (text : List Char) (document_id : String)
    (c : AnalyzedClause) (hc : c ∈ (rule_based_analyze text document_id).clauses) :
    5 ≤ wordCount c.text ∧ contains_legal_language c.text = true := by
  simp only [rule_based_analyze] at hc
  obtain ⟨raw, hraw, hcc⟩ := List.mem_map.mp hc
  have htext : c.text = raw.text := by rw [← hcc]; rfl
  simp only [extract_clauses] at hraw
  obtain ⟨ix, hix, heq⟩ := List.mem_filterMap.mp hraw
  by_cases h5 : wordCount ix.2 < 5
  · rw [if_pos h5] at heq
    simp at heq
  · rw [if_neg h5] at heq
    by_cases hleg : contains_legal_language ix.2 = true
    · rw [if_pos hleg] at heq
      simp only [Option.some.injEq] at heq
      subst heq
      have hs : ix.2 ∈ split_into_sentences (normalize_text text) := by
        have hm := List.mem_map_of_mem Prod.snd hix
        rwa [List.enum_map_snd] at hm
      obtain ⟨hs_mem, -⟩ := List.mem_filter.mp hs
      obtain ⟨frag, -, hfrag⟩ := List.mem_map.mp hs_mem
      have hstrip : pyStrip ix.2 = ix.2 := by rw [← hfrag, pyStrip_idem]
      rw [htext]
      simp only []
      rw [hstrip]
      exact ⟨Nat.le_of_not_lt h5, hleg⟩
    · rw [if_neg hleg] at heq
      simp at heq

/-- A concrete clause record for the C10 witness: the single clause the Rule
Engine emits on a small contract sentence. -/
def witnessClause10 : AnalyzedClause :=
  ((rule_based_analyze "The party shall be liable for any damages.".toList "w10").clauses).headD
    (analyze_clause { text := [], position := 0, start_char := 0, end_char := 0 })

theorem emitted_clauses_are_long_and_legal_witness :
    witnessClause10
        ∈ (rule_based_analyze "The party shall be liable for any damages.".toList "w10").clauses
      ∧ (5 ≤ wordCount witnessClause10.text
         ∧ contains_legal_language witnessClause10.text = true) :=
  ⟨by decide,
   emitted_clauses_are_long_and_legal
     "The party shall be liable for any damages.".toList "w10" witnessClause10 (by decide)⟩

/-- The parseable content of a stored file, as the two parsers of
`DocumentParser` would observe it. `pdf = none` models `PyPDF2.PdfReader`
raising on open/parse; a `none` page models `page.extract_text()` raising.
`docx = none` models `docx.Document` raising; otherwise it carries the
paragraph texts and the tables (rows of cell texts). -/
structure FSFile where
  pdf : Option (List (Option (List Char))) := none
  docx : Option (List (List Char) × List (List (List (List Char)))) := none
deriving DecidableEq

/-- The file system visible to `DocumentParser`: a path-keyed listing;
a missing path models `os.path.exists` returning `False`. -/
structure FS where
  files : List (String × FSFile)
deriving DecidableEq

/-- Source `DocumentParser._parse_pdf`: pages in order, each non-blank page text
prefixed with a page marker, pages whose extraction raises skipped;
no surviving page gives the empty string. `none` models the raise that
`extract_text` turns into `None`. -/
def parse_pdf (f : FSFile) : Option (List Char) :=
  match f.pdf with
  | none => none
  | some pages =>
    let text_content := pages.enum.filterMap (fun ip =>
      match ip.2 with
      | none => none
      | some page_text =>
        if (pyStrip page_text).isEmpty then none
        else some (("[PAGE " ++ toString (ip.1 + 1) ++ "]\n").toList ++ page_text))
    if text_content.isEmpty then some []
    else some (List.intercalate "\n\n".toList text_content)

/-- Source `DocumentParser._parse_docx`: non-blank paragraphs in order, then table
rows as pipe-joined non-blank cells; nothing at all gives the empty
string. -/
def parse_docx (f : FSFile) : Option (List Char) :=
  match f.docx with
  | none => none
  | some pt =>
    let para_content := pt.1.filter (fun p => !(pyStrip p).isEmpty)
    let row_content := List.flatten (pt.2.map (fun table =>
      table.filterMap (fun row =>
        let row_text := row.filter (fun cell => !(pyStrip cell).isEmpty)
        if row_text.isEmpty then none
        else some (List.intercalate " | ".toList row_text))))
    let text_content := para_content ++ row_content
    if text_content.isEmpty then some []
    else some (List.intercalate "\n".toList text_content)

/-- Source `DocumentParser.extract_text`: `None` for a missing file, unsupported
MIME type, or a parser raise; otherwise the parsed text, dispatched on the
three supported MIME types of `DocumentParser.__init__`. -/
def extract_text (fs : FS) (file_path mime_type : String) : Option (List Char) :=
  match lookupAssoc fs.files file_path with
  | none => none
  | some f =>
    if mime_type == "application/pdf" then parse_pdf f
    else if mime_type
        == "application/vnd.openxmlformats-officedocument.wordprocessingml.document" then
      parse_docx f
    else if mime_type == "application/msword" then parse_docx f
    else none

/-- C8: any content type other than PDF and the two word-processor MIME
variants is rejected inside the Extractor itself: the result is the failure
value for every file system whatsoever, so no partial extraction attempt is
ever made. -/
theorem unsupported_mime_rejected (fs : FS) (file_path mime_type : String)
    (h1 : mime_type ≠ "application/pdf")
    (h2 : mime_type
        ≠ "application/vnd.openxmlformats-officedocument.wordprocessingml.document")
    (h3 : mime_type ≠ "application/msword") :
    extract_text fs file_path mime_type = none := by
  unfold extract_text
  cases lookupAssoc fs.files file_path with
  | none => rfl
  | some f =>
    simp only [beq_iff_eq]
    rw [if_neg h1, if_neg h2, if_neg h3]

theorem unsupported_mime_rejected_witness :
    ("text/plain" ≠ "application/pdf"
      ∧ "text/plain"
          ≠ "application/vnd.openxmlformats-officedocument.wordprocessingml.document"
      ∧ "text/plain" ≠ "application/msword")
    ∧ extract_text
        { files := [("uploads/a.txt", { pdf := some [some "hello world".toList] })] }
        "uploads/a.txt" "text/plain" = none :=
  ⟨⟨by decide, by decide, by decide⟩,
   unsupported_mime_rejected
     { files := [("uploads/a.txt", { pdf := some [some "hello world".toList] })] }
     "uploads/a.txt" "text/plain" (by decide) (by decide) (by decide)⟩

/-- The two strategy objects constructed in `AnalysisService.__init__`. -/
inductive Strategy
  | rule_based
  | ml_model
deriving DecidableEq

/-- Source `get_strategy_name` of each strategy class. -/
def Strategy.get_strategy_name : Strategy → String
  | .rule_based => "rule_based"
  | .ml_model => "ml_model"

/-- Source `MLModelStrategy.analyze`: the stub falls back to a fresh rule-based
analysis, then re-tags the metadata strategy and adds the fallback note. -/
def ml_model_analyze (text : List Char) (document_id : String) : AnalysisResult :=
  let result := rule_based_analyze text document_id
  { result with
    metadata := { result.metadata with
                  strategy := "ml_model"
                  note := some "Using rule-based fallback - ML implementation pending" } }

/-- Dispatch of `strategy.analyze(text, document_id)`. -/
def Strategy.analyze : Strategy → List Char → String → AnalysisResult
  | .rule_based, text, document_id => rule_based_analyze text document_id
  | .ml_model, text, document_id => ml_model_analyze text document_id

/-- The name-keyed registry of `AnalysisService.__init__`. -/
def strategies : List (String × Strategy) :=
  [("rule_based", .rule_based), ("ml_model", .ml_model)]

/-- Source `AnalysisService.__init__`: `self.default_strategy`. -/
def default_strategy : String := "rule_based"

/-- Source `AnalysisService.analyze_document`: `strategy_name or default` (Python
falsiness: `None` or the empty string mean the default), dictionary lookup
with warning-and-default fallback on an unknown name, run the strategy, and
stamp `document_id` and `strategy_used` onto the metadata. The source's
`self.strategies[self.default_strategy]` indexes the literal registry and
cannot fail; `.getD .rule_based` is that lookup. -/
def analyze_document (text : List Char) (document_id : String)
    (strategy_name : Option String) : AnalysisResult :=
  let name :=
    match strategy_name with
    | none => default_strategy
    | some s => if s == "" then default_strategy else s
  let strategy :=
    match lookupAssoc strategies name with
    | some s => s
    | none => (lookupAssoc strategies default_strategy).getD .rule_based
  let result := strategy.analyze text document_id
  { result with
    metadata := { result.metadata with
                  document_id := some document_id
                  strategy_used := some strategy.get_strategy_name } }

/-- Source `AnalysisService.analyze_with_playbook`: run the standard analysis and
stamp the playbook id, analysis type and pending note. -/
def analyze_with_playbook (text : List Char) (document_id playbook_id : String) :
    AnalysisResult :=
  let result := analyze_document text document_id none
  { result with
    metadata := { result.metadata with
                  playbook_id := some playbook_id
                  analysis_type := some "playbook_comparison"
                  note := some "Playbook comparison logic pending implementation" } }

/-- C7: an unknown strategy name (which includes the empty, falsy, name)
never fails: the registry silently resolves to the fixed rule-based default,
so the call returns exactly what the omitted-name call returns — the
rule-based strategy's clauses and summary with the registry stamps. In this
embedding `analyze_document` is a total function, so no exception is
possible at all. -/
theorem unknown_strategy_falls_back (text : List Char) (document_id : String)
    (name : String) (h : lookupAssoc strategies name = none) :
    analyze_document text document_id (some name)
        = analyze_document text document_id none
    ∧ (analyze_document text document_id (some name)).clauses
        = (rule_based_analyze text document_id).clauses
    ∧ (analyze_document text document_id (some name)).summary
        = (rule_based_analyze text document_id).summary
    ∧ (analyze_document text document_id (some name)).metadata.strategy_used
        = some "rule_based" := by
  have hres :
      (match lookupAssoc strategies (if name == "" then default_strategy else name) with
       | some s => s
       | none => (lookupAssoc strategies default_strategy).getD Strategy.rule_based)
        = Strategy.rule_based := by
    by_cases he : (name == "") = true
    · rw [if_pos he]
      rfl
    · rw [if_neg he, h]
      rfl
  refine ⟨?_, ?_, ?_, ?_⟩ <;>
    · simp only [analyze_document]
      rw [hres]
      rfl

theorem unknown_strategy_falls_back_witness :
    lookupAssoc strategies "xyz" = none
    ∧ analyze_document "the party shall pay net 30 days.".toList "w7" (some "xyz")
        = analyze_document "the party shall pay net 30 days.".toList "w7" none :=
  ⟨by decide,
   (unknown_strategy_falls_back "the party shall pay net 30 days.".toList "w7" "xyz"
     (by decide)).1⟩

/-- A BSON `_id` filter key: a parsed `ObjectId`, carried as its canonical
lowercase hex string, or a raw string — the fallback key the error handler
of `process_document` uses when `ObjectId(document_id)` raises again. -/
inductive MongoKey
  | oid (hex : String)
  | raw (s : String)
deriving DecidableEq

/-- Whether a key is a parsed `ObjectId` (every stored document `_id` is). -/
def MongoKey.isOid : MongoKey → Bool
  | .oid _ => true
  | .raw _ => false

/-- A hexadecimal digit. -/
def isHexChar (c : Char) : Bool :=
  c.isDigit || (('a' ≤ c) && (c ≤ 'f')) || (('A' ≤ c) && (c ≤ 'F'))

/-- Source `bson.ObjectId(s)`: succeeds exactly on 24-character hex strings, and the
resulting value compares by its 12 bytes — i.e. by the case-canonical hex
string. `none` models the constructor raising. -/
def parseObjectId (s : String) : Option MongoKey :=
  if s.toList.length == 24 && s.toList.all isHexChar then
    some (.oid (String.mk (pyLower s.toList)))
  else none

/-- The `DocumentStatus` values written by the tasks. -/
inductive DocumentStatus
  | pending
  | processing
  | complete
  | error
deriving DecidableEq

/-- A document record with the fields `process_document` reads or writes;
the two timestamps are tracked as presence flags. -/
structure Doc where
  original_filename : String := ""
  file_path : String
  mime_type : String
  status : DocumentStatus
  error_message : Option String := none
  has_processing_started_at : Bool := false
  has_processing_completed_at : Bool := false
  extracted_text_length : Option Nat := none
  total_clauses_found : Option Nat := none
  document_metadata : Option AnalysisMetadata := none
deriving DecidableEq

/-- A row of the clauses collection as built by `process_document`. -/
structure ClauseRow where
  document_id : MongoKey
  text : List Char
  category : String
  subcategory : Option String
  risk_score : ℚ
  risk_level : String
  confidence_score : ℚ
  start_position : Int
  end_position : Int
  page_number : Option Nat
  analysis_metadata : ClauseMeta
  recommendations : String
deriving DecidableEq

/-- The clause document inserted for one analysed clause. -/
def clauseRowOf (document_obj_id : MongoKey) (c : AnalyzedClause) : ClauseRow :=
  { document_id := document_obj_id
    text := c.text
    category := c.category
    subcategory := c.subcategory
    risk_score := c.risk_score
    risk_level := c.risk_level
    confidence_score := c.confidence_score
    start_position := c.start_position
    end_position := c.end_position
    page_number := c.page_number
    analysis_metadata := c.metadata
    recommendations := c.recommendations }

/-- The stores the two tasks touch: the documents collection, the clauses
collection, the playbooks collection (only probed by id) and the file
system the parser reads. -/
structure SysState where
  documents : List (MongoKey × Doc)
  clauses : List ClauseRow := []
  playbooks : List MongoKey := []
  fs : FS
deriving DecidableEq

/-- Source `documents_collection.find_one({"_id": k})`: first record with that
key. -/
def findOne : List (MongoKey × Doc) → MongoKey → Option Doc
  | [], _ => none
  | p :: rest, k => if p.1 == k then some p.2 else findOne rest k

/-- Source `documents_collection.update_one({"_id": k}, {"$set": ...})`: update the
first matching record; matching nothing is a no-op. -/
def updateOne : List (MongoKey × Doc) → MongoKey → (Doc → Doc) → List (MongoKey × Doc)
  | [], _, _ => []
  | p :: rest, k, f =>
    if p.1 == k then (p.1, f p.2) :: rest else p :: updateOne rest k f

/-- The terminal celery outcome of one `process_document` attempt: SUCCESS
with the returned payload, or FAILURE with the raised error's message. -/
inductive JobOutcome
  | succeeded (document_id : String) (total_clauses : Nat)
  | failed (error : String)
deriving DecidableEq

/-- The `except` block of `process_document`: best-effort stamp the document
with Error status, the failure message, and a completion timestamp — re-
parsing the id and falling back to the raw string as filter key when
`ObjectId(document_id)` raises again — then mark the task FAILURE and
re-raise. The store update cannot itself fail in this embedding, so the
inner `try` around it always takes its success path. -/
def processDocumentOnError (st : SysState) (document_id error : String) :
    JobOutcome × SysState :=
  let key :=
    match parseObjectId document_id with
    | some k => k
    | none => .raw document_id
  (.failed error,
   { st with
     documents := updateOne st.documents key (fun d =>
       { d with
         status := .error
         error_message := some error
         has_processing_completed_at := true }) })

/-- Source `process_document`: parse the id, load the record, flip the document
Pending→Processing with a start timestamp, extract text (a falsy result is
fatal), record the extracted length, run the registry's default analysis,
insert one clause row per analysed clause (counting them), and stamp the
document Complete with the count and metadata; any failure goes through
`processDocumentOnError`. -/
def process_document (st : SysState) (document_id : String) :
    JobOutcome × SysState :=
  match parseObjectId document_id with
  | none =>
    processDocumentOnError st document_id
      ("Invalid document ID format: " ++ document_id)
  | some document_obj_id =>
    match findOne st.documents document_obj_id with
    | none =>
      processDocumentOnError st document_id
        ("Document " ++ document_id ++ " not found")
    | some document =>
      let st1 := { st with
        documents := updateOne st.documents document_obj_id (fun d =>
          { d with status := .processing, has_processing_started_at := true }) }
      match extract_text st.fs document.file_path document.mime_type with
      | none =>
        processDocumentOnError st1 document_id "Failed to extract text from document"
      | some extracted_text =>
        if extracted_text.isEmpty then
          processDocumentOnError st1 document_id "Failed to extract text from document"
        else
          let st2 := { st1 with
            documents := updateOne st1.documents document_obj_id (fun d =>
              { d with extracted_text_length := some extracted_text.length }) }
          let analysis_result := analyze_document extracted_text document_id none
          let new_rows := analysis_result.clauses.map (clauseRowOf document_obj_id)
          let total_clauses := new_rows.length
          let st3 := { st2 with clauses := st2.clauses ++ new_rows }
          let st4 := { st3 with
            documents := updateOne st3.documents document_obj_id (fun d =>
              { d with
                status := .complete
                has_processing_completed_at := true
                total_clauses_found := some total_clauses
                document_metadata := some analysis_result.metadata }) }
          (.succeeded document_id total_clauses, st4)

/-- Source `analyze_document_with_playbook`: parse both ids, load document and
playbook, re-extract the text from the stored file (no caching), and
delegate to `AnalysisService.analyze_with_playbook`. Its `except` block only
marks the task FAILURE and re-raises: unlike `process_document`, it contains
no document update. A `None` extraction result flows into the analyser and
makes `re.sub` raise `TypeError`, whose message is embedded here. -/
def analyze_document_with_playbook (st : SysState) (document_id playbook_id : String) :
    Except String AnalysisResult × SysState :=
  match parseObjectId document_id, parseObjectId playbook_id with
  | some document_obj_id, some playbook_obj_id =>
    (match findOne st.documents document_obj_id with
     | none => (.error ("Document " ++ document_id ++ " not found"), st)
     | some document =>
       if st.playbooks.contains playbook_obj_id then
         match extract_text st.fs document.file_path document.mime_type with
         | none => (.error "expected string or bytes-like object", st)
         | some extracted_text =>
           (.ok (analyze_with_playbook extracted_text document_id playbook_id), st)
       else (.error ("Playbook " ++ playbook_id ++ " not found"), st))
  | _, _ =>
    (.error ("Invalid ID format: document_id=" ++ document_id
       ++ ", playbook_id=" ++ playbook_id), st)

theorem findOne_updateOne_self (docs : List (MongoKey × Doc)) (k : MongoKey)
    (f : Doc → Doc) :
    findOne (updateOne docs k f) k = (findOne docs k).map f := by
  induction docs with
  | nil => rfl
  | cons p rest ih => cases hp : p.1 == k <;> simp [updateOne, findOne, hp, ih]

theorem updateOne_of_findOne_none (docs : List (MongoKey × Doc)) (k : MongoKey)
    (f : Doc → Doc) (h : findOne docs k = none) : updateOne docs k f = docs := by
  induction docs with
  | nil => rfl
  | cons p rest ih =>
    cases hp : p.1 == k
    · simp only [findOne, hp, Bool.false_eq_true, if_false] at h
      simp [updateOne, hp, ih h]
    · simp [findOne, hp] at h

theorem findOne_raw_none (docs : List (MongoKey × Doc)) (s : String)
    (hwf : ∀ p ∈ docs, p.1.isOid = true) : findOne docs (.raw s) = none := by
  induction docs with
  | nil => rfl
  | cons p rest ih =>
    have hp := hwf p (by simp)
    have hne : (p.1 == MongoKey.raw s) = false := by
      cases hp1 : p.1 with
      | oid h => simp
      | raw t =>
        rw [hp1] at hp
        simp [MongoKey.isOid] at hp
    simp only [findOne, hne, Bool.false_eq_true, if_false]
    exact ih (fun q hq => hwf q (by simp [hq]))

/-- C2: a falsy extraction result — `None` from the Extractor, or the empty
string, which includes the Extractor's lenient empty-PDF case — is a fatal
job error: the task fails with the "Failed to extract text from document"
message and the document ends in Error status, never Complete. -/
theorem falsy_extraction_is_fatal (st : SysState) (document_id : String)
    (key : MongoKey) (document : Doc)
    (hparse : parseObjectId document_id = some key)
    (hfind : findOne st.documents key = some document)
    (hfalsy : extract_text st.fs document.file_path document.mime_type = none
              ∨ extract_text st.fs document.file_path document.mime_type = some []) :
    (process_document st document_id).1
        = .failed "Failed to extract text from document"
    ∧ (findOne (process_document st document_id).2.documents key).map Doc.status
        = some .error
    ∧ (findOne (process_document st document_id).2.documents key).map Doc.status
        ≠ some .complete := by
  have hrun : process_document st document_id
      = processDocumentOnError
          { st with documents := updateOne st.documents key (fun d =>
              { d with status := .processing, has_processing_started_at := true }) }
          document_id "Failed to extract text from document" := by
    unfold process_document
    simp only [hparse, hfind]
    rcases hfalsy with hf | hf <;> simp [hf]
  have h1 : (process_document st document_id).1
      = .failed "Failed to extract text from document" := by
    rw [hrun]
    rfl
  have hdocs : (process_document st document_id).2.documents
      = updateOne
          (updateOne st.documents key (fun d =>
            { d with status := .processing, has_processing_started_at := true }))
          key
          (fun d =>
            { d with
              status := .error
              error_message := some "Failed to extract text from document"
              has_processing_completed_at := true }) := by
    rw [hrun]
    simp only [processDocumentOnError, hparse]
  refine ⟨h1, ?_, ?_⟩
  · rw [hdocs, findOne_updateOne_self, findOne_updateOne_self, hfind]
    rfl
  · rw [hdocs, findOne_updateOne_self, findOne_updateOne_self, hfind]
    simp

/-- A 24-hex-digit document id shared by the concrete witness states. -/
def exDocId : String := "0123456789abcdef01234567"

/-- The parsed key of `exDocId` (already lowercase hex). -/
def exKey : MongoKey := .oid exDocId

/-- Witness document for C2: a stored PDF whose pages are all blank or
failing — the Extractor's lenient empty-PDF case. -/
def exDoc2 : Doc :=
  { file_path := "uploads/empty.pdf", mime_type := "application/pdf", status := .pending }

def exSt2 : SysState :=
  { documents := [(exKey, exDoc2)]
    fs := { files := [("uploads/empty.pdf", { pdf := some [some "   ".toList, none] })] } }

theorem falsy_extraction_is_fatal_witness :
    (parseObjectId exDocId = some exKey
     ∧ findOne exSt2.documents exKey = some exDoc2
     ∧ extract_text exSt2.fs exDoc2.file_path exDoc2.mime_type = some [])
    ∧ ((process_document exSt2 exDocId).1
          = .failed "Failed to extract text from document"
       ∧ (findOne (process_document exSt2 exDocId).2.documents exKey).map Doc.status
           = some .error
       ∧ (findOne (process_document exSt2 exDocId).2.documents exKey).map Doc.status
           ≠ some .complete) :=
  ⟨⟨by decide, by decide, by decide⟩,
   falsy_extraction_is_fatal exSt2 exDocId exKey exDoc2 (by decide) (by decide)
     (Or.inr (by decide))⟩

/-- C3: a job that reaches the Succeeded terminal state appended exactly the
clause rows it counted: the clause count stamped on the document equals the
number of clause rows persisted for that document by this run, and every
appended row carries this document's key. -/
theorem succeeded_total_matches_persisted (st : SysState) (document_id ret_id : String)
    (n : Nat)
    (h : (process_document st document_id).1 = .succeeded ret_id n) :
    ∃ key new_rows,
      parseObjectId document_id = some key
      ∧ (process_document st document_id).2.clauses = st.clauses ++ new_rows
      ∧ new_rows.length = n
      ∧ (∀ r ∈ new_rows, r.document_id = key)
      ∧ (findOne (process_document st document_id).2.documents key).map
          Doc.total_clauses_found = some (some n) := by
  cases hparse : parseObjectId document_id with
  | none =>
    unfold process_document at h
    simp [hparse, processDocumentOnError] at h
  | some key =>
    cases hfind : findOne st.documents key with
    | none =>
      unfold process_document at h
      simp [hparse, hfind, processDocumentOnError] at h
    | some document =>
      cases hx : extract_text st.fs document.file_path document.mime_type with
      | none =>
        unfold process_document at h
        simp [hparse, hfind, hx, processDocumentOnError] at h
      | some t =>
        cases ht : t.isEmpty with
        | true =>
          unfold process_document at h
          simp [hparse, hfind, hx, ht, processDocumentOnError] at h
        | false =>
          unfold process_document at h ⊢
          simp only [hparse, hfind, hx, ht, Bool.false_eq_true, if_false,
            JobOutcome.succeeded.injEq] at h ⊢
          obtain ⟨-, h2⟩ := h
          refine ⟨key,
            (analyze_document t document_id none).clauses.map (clauseRowOf key),
            rfl, ?_, ?_, ?_, ?_⟩
          · rfl
          · exact h2
          · intro r hr
            obtain ⟨c, -, hc⟩ := List.mem_map.mp hr
            rw [← hc]
            rfl
          · rw [findOne_updateOne_self, findOne_updateOne_self,
              findOne_updateOne_self, hfind]
            simp [h2]

/-- Witness document and state for C3: a word-processor file holding one
contract sentence, so the successful run persists exactly one clause. -/
def exDoc3 : Doc :=
  { file_path := "uploads/c.docx", mime_type := "application/msword", status := .pending }

def exSt3 : SysState :=
  { documents := [(exKey, exDoc3)]
    fs := { files := [("uploads/c.docx",
      { docx := some
          (["The party shall be liable for any damages under this agreement.".toList],
           []) })] } }

theorem succeeded_total_matches_persisted_witness :
    (process_document exSt3 exDocId).1 = .succeeded exDocId 1
    ∧ ∃ key new_rows,
        parseObjectId exDocId = some key
        ∧ (process_document exSt3 exDocId).2.clauses = exSt3.clauses ++ new_rows
        ∧ new_rows.length = 1
        ∧ (∀ r ∈ new_rows, r.document_id = key)
        ∧ (findOne (process_document exSt3 exDocId).2.documents key).map
            Doc.total_clauses_found = some (some 1) :=
  ⟨by decide, succeeded_total_matches_persisted exSt3 exDocId exDocId 1 (by decide)⟩

/-- C5: failures before the document is flipped to Processing — an
unparseable document id or a missing document — fail the job but leave the
whole state, in particular every document record, completely unchanged: no
Error status, no error message and no timestamp is written to anything. -/
theorem prefail_leaves_documents_untouched (st : SysState) (document_id : String)
    (hwf : ∀ p ∈ st.documents, p.1.isOid = true)
    (h : parseObjectId document_id = none
         ∨ ∃ k, parseObjectId document_id = some k ∧ findOne st.documents k = none) :
    (∃ e, (process_document st document_id).1 = .failed e)
    ∧ (process_document st document_id).2 = st := by
  rcases h with hp | ⟨k, hp, hf⟩
  · have hrun : process_document st document_id
        = processDocumentOnError st document_id
            ("Invalid document ID format: " ++ document_id) := by
      unfold process_document
      simp only [hp]
    rw [hrun]
    constructor
    · exact ⟨_, rfl⟩
    · simp only [processDocumentOnError, hp]
      rw [updateOne_of_findOne_none _ _ _ (findOne_raw_none st.documents document_id hwf)]
  · have hrun : process_document st document_id
        = processDocumentOnError st document_id
            ("Document " ++ document_id ++ " not found") := by
      unfold process_document
      simp only [hp, hf]
    rw [hrun]
    constructor
    · exact ⟨_, rfl⟩
    · simp only [processDocumentOnError, hp]
      rw [updateOne_of_findOne_none _ _ _ hf]

theorem prefail_leaves_documents_untouched_witness :
    ((∀ p ∈ exSt2.documents, p.1.isOid = true)
      ∧ parseObjectId "not-a-valid-id" = none)
    ∧ ((∃ e, (process_document exSt2 "not-a-valid-id").1 = .failed e)
       ∧ (process_document exSt2 "not-a-valid-id").2 = exSt2) :=
  ⟨⟨by decide, by decide⟩,
   prefail_leaves_documents_untouched exSt2 "not-a-valid-id" (by decide)
     (Or.inl (by decide))⟩

theorem analyze_document_with_playbook_snd (st : SysState)
    (document_id playbook_id : String) :
    (analyze_document_with_playbook st document_id playbook_id).2 = st := by
  unfold analyze_document_with_playbook
  cases hd : parseObjectId document_id with
  | none => simp [hd]
  | some dk =>
    cases hp : parseObjectId playbook_id with
    | none => simp [hd, hp]
    | some pk =>
      cases hf : findOne st.documents dk with
      | none => simp [hd, hp, hf]
      | some document =>
        cases hpb : st.playbooks.contains pk with
        | false =>
          simp at hpb
          simp [hd, hp, hf, hpb]
        | true =>
          simp at hpb
          cases hx : extract_text st.fs document.file_path document.mime_type with
          | none => simp [hd, hp, hf, hpb, hx]
          | some t => simp [hd, hp, hf, hpb, hx]

/-- C6 amended: the playbook re-analysis entry point re-extracts the text
and delegates to the playbook-aware analysis path, and on any failure the
job is marked Failed and the error propagated — but, unlike the primary
processing run, the Document is never stamped Error: the playbook task
performs no writes at all, so on failure every record is left untouched. -/
theorem playbook_task_semantics (st : SysState) (document_id playbook_id : String) :
    (analyze_document_with_playbook st document_id playbook_id).2 = st
    ∧ (∀ r, (analyze_document_with_playbook st document_id playbook_id).1 = .ok r →
        ∃ key document extracted,
          parseObjectId document_id = some key
          ∧ findOne st.documents key = some document
          ∧ extract_text st.fs document.file_path document.mime_type = some extracted
          ∧ r = analyze_with_playbook extracted document_id playbook_id) := by
  refine ⟨analyze_document_with_playbook_snd st document_id playbook_id, ?_⟩
  intro r h
  unfold analyze_document_with_playbook at h
  cases hd : parseObjectId document_id with
  | none => simp [hd] at h
  | some dk =>
    cases hp : parseObjectId playbook_id with
    | none => simp [hd, hp] at h
    | some pk =>
      cases hf : findOne st.documents dk with
      | none => simp [hd, hp, hf] at h
      | some document =>
        cases hpb : st.playbooks.contains pk with
        | false =>
          simp at hpb
          simp [hd, hp, hf, hpb] at h
        | true =>
          simp at hpb
          cases hx : extract_text st.fs document.file_path document.mime_type with
          | none => simp [hd, hp, hf, hpb, hx] at h
          | some t =>
            simp only [hd, hp, hf, hx] at h
            rw [if_pos (show st.playbooks.contains pk = true by simpa using hpb)] at h
            simp only [Except.ok.injEq] at h
            exact ⟨dk, document, t, rfl, hf, hx, h.symm⟩

/-- Witness document for C6: already Complete, so any spurious Error stamp
would be visible. -/
def exDoc6 : Doc :=
  { file_path := "uploads/c.docx", mime_type := "application/msword", status := .complete }

/-- A valid playbook id that is absent from the playbooks collection of
`exSt6`. -/
def exPid : String := "aaaaaaaaaaaaaaaaaaaaaaaa"

def exSt6 : SysState :=
  { documents := [(exKey, exDoc6)]
    playbooks := []
    fs := { files := [] } }

/-- C6 counterexample: a failing playbook re-analysis (missing playbook)
marks the job Failed and propagates the error, but does not stamp the
Document with Error status — the document stays Complete with no error
message, unlike the primary processing run whose failures stamp Error. -/
theorem playbook_failure_does_not_stamp_error :
    (analyze_document_with_playbook exSt6 exDocId exPid).1
        = .error ("Playbook " ++ exPid ++ " not found")
    ∧ (findOne (analyze_document_with_playbook exSt6 exDocId exPid).2.documents
          exKey).map Doc.status = some .complete
    ∧ (findOne (analyze_document_with_playbook exSt6 exDocId exPid).2.documents
          exKey).map Doc.error_message = some none := by
  refine ⟨by rfl, by decide, by decide⟩

/-- A playbook-run state for the success side of the C6 witness. -/
def exSt6ok : SysState :=
  { documents := [(exKey, exDoc3)]
    playbooks := [.oid exPid]
    fs := exSt3.fs }

def exText6 : List Char :=
  "The party shall be liable for any damages under this agreement.".toList

theorem playbook_task_semantics_witness :
    ((analyze_document_with_playbook exSt6 exDocId exPid).2 = exSt6)
    ∧ (∃ key document extracted,
        parseObjectId exDocId = some key
        ∧ findOne exSt6ok.documents key = some document
        ∧ extract_text exSt6ok.fs document.file_path document.mime_type = some extracted
        ∧ analyze_with_playbook exText6 exDocId exPid
            = analyze_with_playbook extracted exDocId exPid) :=
  ⟨(playbook_task_semantics exSt6 exDocId exPid).1,
   (playbook_task_semantics exSt6ok exDocId exPid).2
     (analyze_with_playbook exText6 exDocId exPid) (by rfl)⟩
